import Mathlib

/-!
# Physics Sandbox: collision engine

A shallow embedding of the physics core of `main.cpp` (struct `Ball`,
`handlePlatformCollision`, `resolveCollision`,
`simulateTrajectoryWithCollisions` and the un-paused part of the frame loop in
`main`).

Modelling conventions.

* A C++ `float` is an element of a linearly ordered field `K` and the
  arithmetic of the physics is the exact arithmetic of `K`: rounding, overflow
  and NaN of that arithmetic are outside the model.  Examples are evaluated in
  `ℚ`; where the square root has to be the Euclidean distance the field is `ℝ`.
* The one place where rounding changes a discrete result is the loop counter
  `float t` of `simulateTrajectoryWithCollisions` (`t += dt` decides how many
  points are returned).  Its addition is a parameter `addf`; `addF32` is the
  IEEE 754 binary32 addition.
* `std::sqrt` belongs to the C++ standard library, not to the program; it is a
  parameter `sqrtf : K → K` of `resolveCollision`.  Over `ℝ` it is `Real.sqrt`.
* `sf::CircleShape` is reduced to the two attributes the physics reads and
  writes: its position (`shape.getPosition`, `shape.setPosition`,
  `shape.move`) and its radius (`shape.getRadius`).  The origin is set to
  `(radius, radius)` by the constructor, so the position is the centre.
* `plat.getGlobalBounds()` is the `FloatRect` handed to
  `handlePlatformCollision`.
* `std::vector` is `List`; `push_back` appends at the end and
  `erase(begin())` drops the head.
-/

namespace PhysicsSandbox

/-! ## Data model -/

/-- The type `sf::Vector2f`. -/
structure Vector2f (K : Type) where
  x : K
  y : K
  deriving DecidableEq

/-- The type `sf::Vector2u` (what `window.getSize()` returns). -/
structure Vector2u where
  x : ℕ
  y : ℕ
  deriving DecidableEq

/-- The type `sf::FloatRect`. -/
structure FloatRect (K : Type) where
  left : K
  top : K
  width : K
  height : K
  deriving DecidableEq

variable {K : Type} [LinearOrderedField K]

namespace Vector2f

instance : Add (Vector2f K) := ⟨fun a b => ⟨a.x + b.x, a.y + b.y⟩⟩
instance : Sub (Vector2f K) := ⟨fun a b => ⟨a.x - b.x, a.y - b.y⟩⟩
instance : Neg (Vector2f K) := ⟨fun a => ⟨-a.x, -a.y⟩⟩
/-- The overload `operator*(Vector2f, float)`. -/
instance : HMul (Vector2f K) K (Vector2f K) := ⟨fun a s => ⟨a.x * s, a.y * s⟩⟩
/-- The overload `operator*(float, Vector2f)`. -/
instance : HMul K (Vector2f K) (Vector2f K) := ⟨fun s a => ⟨a.x * s, a.y * s⟩⟩
/-- The overload `operator/(Vector2f, float)`. -/
instance : HDiv (Vector2f K) K (Vector2f K) := ⟨fun a s => ⟨a.x / s, a.y / s⟩⟩

end Vector2f

/-- The struct `Ball`.  `position` and `radius` stand for the `shape`. -/
structure Ball (K : Type) where
  position : Vector2f K
  radius : K
  velocity : Vector2f K
  acceleration : Vector2f K
  mass : K
  elasticity : K
  dragCoefficient : K
  trajectoryPoints : List (Vector2f K)
  gravityForce : Vector2f K
  dragForce : Vector2f K
  totalForce : Vector2f K
  lastThrowForce : Vector2f K
  deriving DecidableEq

/-! ## Operations -/

namespace Ball

/-- The method `Ball::updateForces`. -/
def updateForces (ball : Ball K) (gravity : Vector2f K) : Ball K :=
  let gravityForce := gravity * ball.mass
  let dragForce := (-ball.dragCoefficient) * ball.velocity
  let totalForce := gravityForce + dragForce
  { ball with
    gravityForce := gravityForce
    dragForce := dragForce
    totalForce := totalForce
    acceleration := totalForce / ball.mass }

/-- The first two statements of `Ball::updatePhysics` (and of the body of the
loop of `simulateTrajectoryWithCollisions`): semi-implicit Euler. -/
def integrate (ball : Ball K) (dt : K) : Ball K :=
  let velocity := ball.velocity + ball.acceleration * dt
  { ball with velocity := velocity, position := ball.position + velocity * dt }

/-- The window-edge block of `Ball::updatePhysics`, lines 56 to 72: the two
`if / else if` statements on the local `pos`, then `shape.setPosition(pos)`.
The same text is repeated at lines 163 to 182 of
`simulateTrajectoryWithCollisions`. -/
def bounceOnWindow (ball : Ball K) (windowSize : Vector2u) : Ball K :=
  let pos := ball.position
  let r := ball.radius
  let px : K × K :=
    if pos.x - r < 0 then (r, -ball.velocity.x * ball.elasticity)
    else if pos.x + r > (windowSize.x : K) then
      ((windowSize.x : K) - r, -ball.velocity.x * ball.elasticity)
    else (pos.x, ball.velocity.x)
  let py : K × K :=
    if pos.y - r < 0 then (r, -ball.velocity.y * ball.elasticity)
    else if pos.y + r > (windowSize.y : K) then
      ((windowSize.y : K) - r, -ball.velocity.y * ball.elasticity)
    else (pos.y, ball.velocity.y)
  { ball with position := ⟨px.1, py.1⟩, velocity := ⟨px.2, py.2⟩ }

/-- The last three lines of `Ball::updatePhysics`: `push_back(pos)`, then
`erase(begin())` when the size exceeds 150. -/
def recordTrajectory (ball : Ball K) : Ball K :=
  let pts := ball.trajectoryPoints ++ [ball.position]
  { ball with trajectoryPoints := if pts.length > 150 then pts.tail else pts }

/-- The method `Ball::updatePhysics`. -/
def updatePhysics (ball : Ball K) (dt : K) (windowSize : Vector2u) : Ball K :=
  recordTrajectory (bounceOnWindow (integrate ball dt) windowSize)

end Ball

/-- The condition of the `// Top` branch of `handlePlatformCollision`. -/
def topCond (ball : Ball K) (p : FloatRect K) : Prop :=
  ball.position.y + ball.radius > p.top ∧ ball.position.y < p.top ∧
  ball.position.x + ball.radius > p.left ∧
  ball.position.x - ball.radius < p.left + p.width ∧ ball.velocity.y > 0

/-- The condition of the `// Bottom` branch. -/
def bottomCond (ball : Ball K) (p : FloatRect K) : Prop :=
  ball.position.y - ball.radius < p.top + p.height ∧
  ball.position.y > p.top + p.height ∧
  ball.position.x + ball.radius > p.left ∧
  ball.position.x - ball.radius < p.left + p.width ∧ ball.velocity.y < 0

/-- The condition of the `// Left` branch. -/
def leftCond (ball : Ball K) (p : FloatRect K) : Prop :=
  ball.position.x + ball.radius > p.left ∧ ball.position.x < p.left ∧
  ball.position.y + ball.radius > p.top ∧
  ball.position.y - ball.radius < p.top + p.height ∧ ball.velocity.x > 0

/-- The condition of the `// Right` branch. -/
def rightCond (ball : Ball K) (p : FloatRect K) : Prop :=
  ball.position.x - ball.radius < p.left + p.width ∧
  ball.position.x > p.left + p.width ∧
  ball.position.y + ball.radius > p.top ∧
  ball.position.y - ball.radius < p.top + p.height ∧ ball.velocity.x < 0

instance (ball : Ball K) (p : FloatRect K) : Decidable (topCond ball p) := by
  unfold topCond; infer_instance
instance (ball : Ball K) (p : FloatRect K) : Decidable (bottomCond ball p) := by
  unfold bottomCond; infer_instance
instance (ball : Ball K) (p : FloatRect K) : Decidable (leftCond ball p) := by
  unfold leftCond; infer_instance
instance (ball : Ball K) (p : FloatRect K) : Decidable (rightCond ball p) := by
  unfold rightCond; infer_instance

/-- The function `handlePlatformCollision`; `p` is `plat.getGlobalBounds()`. -/
def handlePlatformCollision (ball : Ball K) (p : FloatRect K) : Ball K :=
  let pos := ball.position
  let r := ball.radius
  let v := ball.velocity
  if topCond ball p then
    { ball with position := ⟨pos.x, p.top - r⟩
                velocity := ⟨v.x, -v.y * ball.elasticity⟩ }
  else if bottomCond ball p then
    { ball with position := ⟨pos.x, p.top + p.height + r⟩
                velocity := ⟨v.x, -v.y * ball.elasticity⟩ }
  else if leftCond ball p then
    { ball with position := ⟨p.left - r, pos.y⟩
                velocity := ⟨-v.x * ball.elasticity, v.y⟩ }
  else if rightCond ball p then
    { ball with position := ⟨p.left + p.width + r, pos.y⟩
                velocity := ⟨-v.x * ball.elasticity, v.y⟩ }
  else ball

/-- The function `resolveCollision`; the pair returned is the new `a` and the
new `b`.  `sqrtf` is `std::sqrt`. -/
def resolveCollision (sqrtf : K → K) (a b : Ball K) : Ball K × (Ball K) :=
  let delta := b.position - a.position
  let dist := sqrtf (delta.x * delta.x + delta.y * delta.y)
  if dist = 0 then (a, b)
  else
    let overlap := a.radius + b.radius - dist
    if overlap > 0 then
      let normal := delta / dist
      let a1 := { a with position := a.position + (-normal) * (overlap / 2) }
      let b1 := { b with position := b.position + normal * (overlap / 2) }
      let relVel := b1.velocity - a1.velocity
      let velAlongNormal := relVel.x * normal.x + relVel.y * normal.y
      if velAlongNormal > 0 then (a1, b1)
      else
        let restitution := (a1.elasticity + b1.elasticity) / 2
        let impulse := -(1 + restitution) * velAlongNormal / (1 / a1.mass + 1 / b1.mass)
        let impulseVec := impulse * normal
        ({ a1 with velocity := a1.velocity - impulseVec / a1.mass },
         { b1 with velocity := b1.velocity + impulseVec / b1.mass })
    else (a, b)

/-- The local `delta` of `resolveCollision`. -/
def centreDelta (a b : Ball K) : Vector2f K := b.position - a.position

/-- The local `dist` of `resolveCollision`. -/
def centreDist (sqrtf : K → K) (a b : Ball K) : K :=
  sqrtf ((centreDelta a b).x * (centreDelta a b).x + (centreDelta a b).y * (centreDelta a b).y)

/-- The local `overlap` of `resolveCollision`. -/
def overlapOf (sqrtf : K → K) (a b : Ball K) : K :=
  a.radius + b.radius - centreDist sqrtf a b

/-- The local `normal` of `resolveCollision`. -/
def normalOf (sqrtf : K → K) (a b : Ball K) : Vector2f K :=
  centreDelta a b / centreDist sqrtf a b

/-- The local `velAlongNormal` of `resolveCollision`. -/
def velAlongNormal (sqrtf : K → K) (a b : Ball K) : K :=
  (b.velocity - a.velocity).x * (normalOf sqrtf a b).x +
    (b.velocity - a.velocity).y * (normalOf sqrtf a b).y

/-- The number `d` is the Euclidean distance between the centres of `a` and
`b`: it is not negative and its square is the squared length of `delta`. -/
def IsCentreDistance (d : K) (a b : Ball K) : Prop :=
  0 ≤ d ∧ d * d = (centreDelta a b).x * (centreDelta a b).x +
    (centreDelta a b).y * (centreDelta a b).y

/-- The body of the loop of `simulateTrajectoryWithCollisions` up to the
`push_back`: forces, integration, window edges, then every platform in order. -/
def ghostStep (gravity : Vector2f K) (dt : K) (platforms : List (FloatRect K))
    (windowSize : Vector2u) (ghost : Ball K) : Ball K :=
  platforms.foldl handlePlatformCollision
    (Ball.bounceOnWindow (Ball.integrate (ghost.updateForces gravity) dt) windowSize)

/-- The loop `for (float t = 0.f; t < duration; t += dt)` of
`simulateTrajectoryWithCollisions`, from the state `(t, ghost, points)`.
`addf` is the `float` addition of `t += dt`: how it rounds decides how many
times the body runs.  The first numeric argument bounds the number of times
the body may run; `none` means the bound was reached with the loop condition
still true. -/
def simulateLoop (addf : K → K → K) (gravity : Vector2f K) (duration dt : K)
    (platforms : List (FloatRect K)) (windowSize : Vector2u) :
    ℕ → K → Ball K → List (Vector2f K) → Option (List (Vector2f K))
  | 0, t, _, points => if t < duration then none else some points
  | fuel + 1, t, ghost, points =>
    if t < duration then
      let ghost1 := ghostStep gravity dt platforms windowSize ghost
      simulateLoop addf gravity duration dt platforms windowSize fuel (addf t dt) ghost1
        (points ++ [ghost1.position])
    else some points

/-- The function `simulateTrajectoryWithCollisions` (with the addition of the
loop counter and the bound on the number of iterations as first arguments). -/
def simulateTrajectoryWithCollisions (addf : K → K → K) (fuel : ℕ) (ball : Ball K)
    (gravity : Vector2f K) (duration dt : K) (platforms : List (FloatRect K))
    (windowSize : Vector2u) : Option (List (Vector2f K)) :=
  simulateLoop addf gravity duration dt platforms windowSize fuel 0 ball []

/-- The header `for (float t = 0.f; t < duration; t += dt)` alone, from the
counter value `t`: the number of times the body runs, `none` when the loop
condition is still true after `fuel` runs. -/
def loopCount (addf : K → K → K) (duration dt : K) : ℕ → K → Option ℕ
  | 0, t => if t < duration then none else some 0
  | fuel + 1, t =>
    if t < duration then (loopCount addf duration dt fuel (addf t dt)).map (· + 1)
    else some 0

/-- A loop `for (size_t i = 0; i < balls.size(); ++i)` whose body rewrites
`balls[i]` only: `f i` is applied to the ball at index `i`, counting from the
first argument. -/
def forEachBall (f : ℕ → Ball K → Ball K) : ℕ → List (Ball K) → List (Ball K)
  | _, [] => []
  | i, b :: bs => f i b :: forEachBall f (i + 1) bs

/-- The test `dragging && (int)i == draggingIndex` of the frame loop. -/
def isDragged (dragging : Bool) (draggingIndex : ℤ) (i : ℕ) : Bool :=
  dragging && decide ((i : ℤ) = draggingIndex)

/-- The first loop of the `if (!paused)` block: `updateForces` on every ball
but the dragged one. -/
def forceStage (dragging : Bool) (draggingIndex : ℤ) (gravity : Vector2f K)
    (balls : List (Ball K)) : List (Ball K) :=
  forEachBall (fun i b => if isDragged dragging draggingIndex i then b
    else b.updateForces gravity) 0 balls

/-- The call `resolveCollision(balls[i], balls[j])` on the vector. -/
def resolvePairAt (sqrtf : K → K) (balls : List (Ball K)) (i j : ℕ) : List (Ball K) :=
  match balls[i]?, balls[j]? with
  | some a, some b =>
    let r := resolveCollision sqrtf a b
    (balls.set i r.1).set j r.2
  | _, _ => balls

/-- The body of the inner loop of the second stage, for the pair `(i, j)`. -/
def collisionBody (sqrtf : K → K) (dragging : Bool) (draggingIndex : ℤ) (i : ℕ)
    (balls : List (Ball K)) (j : ℕ) : List (Ball K) :=
  if isDragged dragging draggingIndex i || isDragged dragging draggingIndex j then balls
  else resolvePairAt sqrtf balls i j

/-- The second (nested) loop of the `if (!paused)` block: `i` from `0`,
`j` from `i + 1`, both below `balls.size()`. -/
def collisionStage (sqrtf : K → K) (dragging : Bool) (draggingIndex : ℤ)
    (balls : List (Ball K)) : List (Ball K) :=
  (List.range balls.length).foldl
    (fun bs i => (List.range' (i + 1) (balls.length - (i + 1))).foldl
      (collisionBody sqrtf dragging draggingIndex i) bs)
    balls

/-- The body of the third loop for one ball that is not dragged:
`updatePhysics`, then `handlePlatformCollision` with every platform. -/
def moveBall (dt : K) (windowSize : Vector2u) (platforms : List (FloatRect K))
    (ball : Ball K) : Ball K :=
  platforms.foldl handlePlatformCollision (ball.updatePhysics dt windowSize)

/-- The third loop of the `if (!paused)` block. -/
def moveStage (dragging : Bool) (draggingIndex : ℤ) (dt : K) (windowSize : Vector2u)
    (platforms : List (FloatRect K)) (balls : List (Ball K)) : List (Ball K) :=
  forEachBall (fun i b => if isDragged dragging draggingIndex i then b
    else moveBall dt windowSize platforms b) 0 balls

/-- The `if (!paused)` block of the frame loop of `main`. -/
def simulationStep (sqrtf : K → K) (dragging : Bool) (draggingIndex : ℤ)
    (gravity : Vector2f K) (dt : K) (windowSize : Vector2u) (platforms : List (FloatRect K))
    (balls : List (Ball K)) : List (Ball K) :=
  moveStage dragging draggingIndex dt windowSize platforms
    (collisionStage sqrtf dragging draggingIndex
      (forceStage dragging draggingIndex gravity balls))

/-- What one pass of the frame loop of `main` feeds the physics: the flags
`paused` and `dragging`, `draggingIndex`, the current `gravity`, the measured
`dt` and `window.getSize()`. -/
structure FrameInput (K : Type) where
  paused : Bool
  dragging : Bool
  draggingIndex : ℤ
  gravity : Vector2f K
  dt : K
  windowSize : Vector2u

/-- The physics of one pass of the frame loop: nothing when `paused`, the
`if (!paused)` block otherwise. -/
def frame (sqrtf : K → K) (platforms : List (FloatRect K)) (balls : List (Ball K))
    (fr : FrameInput K) : List (Ball K) :=
  if fr.paused then balls
  else simulationStep sqrtf fr.dragging fr.draggingIndex fr.gravity fr.dt fr.windowSize
    platforms balls

/-- The physics of successive passes of the frame loop. -/
def runFrames (sqrtf : K → K) (platforms : List (FloatRect K)) (frames : List (FrameInput K))
    (balls : List (Ball K)) : List (Ball K) :=
  frames.foldl (frame sqrtf platforms) balls

/-- The ball `b` with its trajectory history replaced by `t`; the history is
the only field in which the ghost of the prediction and the live ball differ. -/
def withTrajectory (t : List (Vector2f K)) (b : Ball K) : Ball K :=
  { b with trajectoryPoints := t }

/-- The list `points` holds `n` positions, the one of index `k` being the
position of a lone ball that is not dragged after `k + 1` applications of
`simulationStep` (forces, the pairwise stage, which has no pair to treat,
`updatePhysics` with the same `dt`, then every platform in order) to the
one-ball vector `[ball]`. -/
def LiveStepPositions (sqrtf : K → K) (draggingIndex : ℤ) (ball : Ball K)
    (gravity : Vector2f K) (dt : K) (windowSize : Vector2u) (platforms : List (FloatRect K))
    (n : ℕ) (points : List (Vector2f K)) : Prop :=
  points.length = n ∧
  ∀ k : ℕ, k < n →
    points[k]? =
      (((simulationStep sqrtf false draggingIndex gravity dt windowSize platforms)^[k + 1]
        [ball])[0]?).map Ball.position

/-- A square root on the rationals used to instantiate `sqrtf` on examples:
exact on the square of a rational (the integer square roots of numerator and
denominator). -/
def sqrtExact (q : ℚ) : ℚ :=
  (Nat.sqrt q.num.natAbs : ℚ) / (Nat.sqrt q.den : ℚ)

/-! ### The binary32 addition of the loop counter

IEEE 754 binary32 (the C++ `float`): 24 significant bits, least normal
exponent -126, round to nearest with ties to even.  Results of absolute value
`2 ^ 128` or more (infinities) are not modelled. -/

/-- The number of halvings that bring `n` below 2 (at most `fuel` of them):
`⌊log₂ n⌋` for `0 < n ≤ fuel`. -/
def log2Nat : ℕ → ℕ → ℕ
  | 0, _ => 0
  | fuel + 1, n => if n < 2 then 0 else log2Nat fuel (n / 2) + 1

/-- The exponent `⌊log₂ (n / d)⌋` of the positive rational `n / d`. -/
def floorLog2 (n d : ℕ) : ℤ :=
  let e : ℤ := (log2Nat n n : ℤ) - (log2Nat d d : ℤ)
  if 0 ≤ e then (if d * 2 ^ e.toNat ≤ n then e else e - 1)
  else (if d ≤ n * 2 ^ (-e).toNat then e else e - 1)

/-- The integer nearest to `n / d`, the even one of the two when `n / d` is
half-way between them. -/
def roundHalfEven (n d : ℕ) : ℕ :=
  let f := n / d
  let r2 := 2 * (n % d)
  if r2 < d then f else if d < r2 then f + 1 else f + f % 2

/-- The binary32 number nearest to `q`, ties to even: with `e` the exponent of
`q` (at least -126), `q` is rounded to a multiple of `2 ^ (e - 23)`. -/
def roundF32 (q : ℚ) : ℚ :=
  if q.num = 0 then 0
  else
    let n := q.num.natAbs
    let d := q.den
    let e := max (floorLog2 n d) (-126)
    let s : ℤ := 23 - e
    let m : ℕ := if 0 ≤ s then roundHalfEven (n * 2 ^ s.toNat) d
                 else roundHalfEven n (d * 2 ^ (-s).toNat)
    let a : ℚ := if 0 ≤ s then mkRat m (2 ^ s.toNat) else mkRat (m * 2 ^ (-s).toNat) 1
    if 0 ≤ q.num then a else -a

/-- The addition of two `float`s: the exact sum, rounded to binary32. -/
def addF32 (x y : ℚ) : ℚ := roundF32 (x + y)

/-- The `float` literal `0.016f` (the substep `main` passes):
`8589935 / 2 ^ 29`. -/
def substep016 : ℚ := 8589935 / 536870912

/-- The `float` literal `0.1f`: `13421773 / 2 ^ 27`. -/
def substep01 : ℚ := 13421773 / 134217728

/-! ### Inputs of the examples -/

/-- A ball as the constructor `Ball(radius, pos)` builds it, with the
elasticity 0.8 and drag 0.1 that `main` gives a new ball, moving at `vel`. -/
def mkBall (radius : K) (pos vel : Vector2f K) : Ball K :=
  { position := pos, radius := radius, velocity := vel, acceleration := ⟨0, 0⟩,
    mass := 1, elasticity := 4 / 5, dragCoefficient := 1 / 10,
    trajectoryPoints := [], gravityForce := ⟨0, 0⟩, dragForce := ⟨0, 0⟩,
    totalForce := ⟨0, 0⟩, lastThrowForce := ⟨0, 0⟩ }

/-- The platform of `main`: position (200, 600), size (600, 20). -/
def mainPlatform : FloatRect K := ⟨200, 600, 600, 20⟩

/-- A ball of the head-on scenario: radius 20, mass 1, elasticity 1, centre
`pos`, velocity `vel`. -/
def headOnBall (pos vel : Vector2f K) : Ball K :=
  { mkBall 20 pos vel with elasticity := 1 }

/-- The first ball of the head-on scenario of the specification: centre
(0, 0), velocity (10, 0). -/
def headOnA : Ball ℚ := headOnBall ⟨0, 0⟩ ⟨10, 0⟩

/-- The second ball of the head-on scenario of the specification: centre
(30, 0), velocity (-10, 0). -/
def headOnB : Ball ℚ := headOnBall ⟨30, 0⟩ ⟨-10, 0⟩

/-- A ball at rest at (500, 100) whose history already holds 150 points. -/
def fullHistoryBall : Ball ℚ :=
  { mkBall 20 ⟨500, 100⟩ ⟨0, 0⟩ with trajectoryPoints := List.replicate 150 ⟨1, 1⟩ }

/-! ## Basic lemmas -/

namespace Vector2f

@[simp] theorem add_x (a b : Vector2f K) : (a + b).x = a.x + b.x := rfl
@[simp] theorem add_y (a b : Vector2f K) : (a + b).y = a.y + b.y := rfl
@[simp] theorem sub_x (a b : Vector2f K) : (a - b).x = a.x - b.x := rfl
@[simp] theorem sub_y (a b : Vector2f K) : (a - b).y = a.y - b.y := rfl
@[simp] theorem neg_x (a : Vector2f K) : (-a).x = -a.x := rfl
@[simp] theorem neg_y (a : Vector2f K) : (-a).y = -a.y := rfl
@[simp] theorem mul_x (a : Vector2f K) (s : K) : (a * s).x = a.x * s := rfl
@[simp] theorem mul_y (a : Vector2f K) (s : K) : (a * s).y = a.y * s := rfl
@[simp] theorem smul_x (s : K) (a : Vector2f K) : (s * a).x = a.x * s := rfl
@[simp] theorem smul_y (s : K) (a : Vector2f K) : (s * a).y = a.y * s := rfl
@[simp] theorem div_x (a : Vector2f K) (s : K) : (a / s).x = a.x / s := rfl
@[simp] theorem div_y (a : Vector2f K) (s : K) : (a / s).y = a.y / s := rfl

omit [LinearOrderedField K] in
theorem ext_iff' (a b : Vector2f K) : a = b ↔ a.x = b.x ∧ a.y = b.y := by
  cases a; cases b; simp

end Vector2f

/-! ## Platform collision -/

/-- C1. `handlePlatformCollision` is first-match-wins in the order top,
bottom, left, right.  Whenever the top condition holds the ball is snapped to
`pos.y = top - r` and `v.y` becomes `-elasticity * v.y`, with `pos.x`, `v.x`
and every other field unchanged, whatever the other three conditions say; the
bottom correction is applied exactly when top fails and bottom holds; the left
one exactly when top and bottom fail and left holds; the right one exactly
when the three others fail and right holds; and when no condition holds the
ball is returned unchanged. -/
theorem handlePlatformCollision_first_match (ball : Ball K) (p : FloatRect K) :
    (ball.position.y + ball.radius > p.top ∧ ball.position.y < p.top ∧
        ball.position.x + ball.radius > p.left ∧
        ball.position.x - ball.radius < p.left + p.width ∧ ball.velocity.y > 0 →
      handlePlatformCollision ball p =
        { ball with position := ⟨ball.position.x, p.top - ball.radius⟩
                    velocity := ⟨ball.velocity.x, -ball.elasticity * ball.velocity.y⟩ }) ∧
    (¬ topCond ball p → bottomCond ball p →
      handlePlatformCollision ball p =
        { ball with position := ⟨ball.position.x, p.top + p.height + ball.radius⟩
                    velocity := ⟨ball.velocity.x, -ball.elasticity * ball.velocity.y⟩ }) ∧
    (¬ topCond ball p → ¬ bottomCond ball p → leftCond ball p →
      handlePlatformCollision ball p =
        { ball with position := ⟨p.left - ball.radius, ball.position.y⟩
                    velocity := ⟨-ball.elasticity * ball.velocity.x, ball.velocity.y⟩ }) ∧
    (¬ topCond ball p → ¬ bottomCond ball p → ¬ leftCond ball p → rightCond ball p →
      handlePlatformCollision ball p =
        { ball with position := ⟨p.left + p.width + ball.radius, ball.position.y⟩
                    velocity := ⟨-ball.elasticity * ball.velocity.x, ball.velocity.y⟩ }) ∧
    (¬ topCond ball p → ¬ bottomCond ball p → ¬ leftCond ball p → ¬ rightCond ball p →
      handlePlatformCollision ball p = ball) := by
  have key : ∀ v e : K, -v * e = -e * v := fun v e => by ring
  refine ⟨fun h => ?_, fun h1 h2 => ?_, fun h1 h2 h3 => ?_, fun h1 h2 h3 h4 => ?_,
    fun h1 h2 h3 h4 => ?_⟩
  · have ht : topCond ball p := h
    simp only [handlePlatformCollision, if_pos ht, key]
  · simp only [handlePlatformCollision, if_neg h1, if_pos h2, key]
  · simp only [handlePlatformCollision, if_neg h1, if_neg h2, if_pos h3, key]
  · simp only [handlePlatformCollision, if_neg h1, if_neg h2, if_neg h3, if_pos h4, key]
  · simp only [handlePlatformCollision, if_neg h1, if_neg h2, if_neg h3, if_neg h4]

/-- C1, on the platform of `main`: a ball of radius 20 at `x = 400`, 10 below
the contact height and falling, is snapped to `y = 600 - 20`; and a ball on
the top-left corner, for which the top and the left condition both hold, gets
the top correction only. -/
theorem handlePlatformCollision_first_match_witness :
    handlePlatformCollision (mkBall 20 ⟨400, 590⟩ ⟨30, 100⟩ : Ball ℚ) mainPlatform =
      { (mkBall 20 ⟨400, 590⟩ ⟨30, 100⟩ : Ball ℚ) with
        position := ⟨400, 600 - 20⟩, velocity := ⟨30, -(4 / 5) * 100⟩ } ∧
    (topCond (mkBall 20 ⟨190, 590⟩ ⟨50, 50⟩ : Ball ℚ) mainPlatform ∧
     leftCond (mkBall 20 ⟨190, 590⟩ ⟨50, 50⟩ : Ball ℚ) mainPlatform ∧
     handlePlatformCollision (mkBall 20 ⟨190, 590⟩ ⟨50, 50⟩ : Ball ℚ) mainPlatform =
      { (mkBall 20 ⟨190, 590⟩ ⟨50, 50⟩ : Ball ℚ) with
        position := ⟨190, 600 - 20⟩, velocity := ⟨50, -(4 / 5) * 50⟩ }) := by
  have hA : topCond (mkBall 20 ⟨400, 590⟩ ⟨30, 100⟩ : Ball ℚ) mainPlatform := by
    norm_num [topCond, mkBall, mainPlatform]
  have hB : topCond (mkBall 20 ⟨190, 590⟩ ⟨50, 50⟩ : Ball ℚ) mainPlatform := by
    norm_num [topCond, mkBall, mainPlatform]
  have hL : leftCond (mkBall 20 ⟨190, 590⟩ ⟨50, 50⟩ : Ball ℚ) mainPlatform := by
    norm_num [leftCond, mkBall, mainPlatform]
  exact ⟨(handlePlatformCollision_first_match _ _).1 hA, hB, hL,
    (handlePlatformCollision_first_match _ _).1 hB⟩

/-! ## Pairwise collision -/

theorem resolveCollision_of_dist_eq_zero (sqrtf : K → K) (a b : Ball K)
    (h : centreDist sqrtf a b = 0) : resolveCollision sqrtf a b = (a, b) := by
  unfold centreDist centreDelta at h
  simp only [resolveCollision, if_pos h]

theorem resolveCollision_of_overlap_nonpos (sqrtf : K → K) (a b : Ball K)
    (h : ¬ overlapOf sqrtf a b > 0) : resolveCollision sqrtf a b = (a, b) := by
  unfold overlapOf centreDist centreDelta at h
  simp only [resolveCollision, if_neg h, ite_self]

/-- The result of `resolveCollision` on two overlapping balls. -/
theorem resolveCollision_of_overlap (sqrtf : K → K) (a b : Ball K)
    (h0 : centreDist sqrtf a b ≠ 0) (h1 : overlapOf sqrtf a b > 0) :
    resolveCollision sqrtf a b =
      if velAlongNormal sqrtf a b > 0 then
        ({ a with position := a.position + (-normalOf sqrtf a b) * (overlapOf sqrtf a b / 2) },
         { b with position := b.position + normalOf sqrtf a b * (overlapOf sqrtf a b / 2) })
      else
        ({ a with
            position := a.position + (-normalOf sqrtf a b) * (overlapOf sqrtf a b / 2)
            velocity := a.velocity -
              ((-(1 + (a.elasticity + b.elasticity) / 2) * velAlongNormal sqrtf a b /
                (1 / a.mass + 1 / b.mass)) * normalOf sqrtf a b) / a.mass },
         { b with
            position := b.position + normalOf sqrtf a b * (overlapOf sqrtf a b / 2)
            velocity := b.velocity +
              ((-(1 + (a.elasticity + b.elasticity) / 2) * velAlongNormal sqrtf a b /
                (1 / a.mass + 1 / b.mass)) * normalOf sqrtf a b) / b.mass }) := by
  unfold velAlongNormal normalOf
  unfold overlapOf at h1 ⊢
  unfold centreDist centreDelta at h0 h1 ⊢
  simp only [resolveCollision, if_neg h0, if_pos h1]

/-- C2. `resolveCollision` is a no-op outside real overlap: when the computed
centre distance is `0`, or is at least `a.radius + b.radius`, both balls are
returned with every field unchanged. -/
theorem resolveCollision_noop (sqrtf : K → K) (a b : Ball K)
    (h : centreDist sqrtf a b = 0 ∨ centreDist sqrtf a b ≥ a.radius + b.radius) :
    resolveCollision sqrtf a b = (a, b) := by
  rcases h with h | h
  · exact resolveCollision_of_dist_eq_zero sqrtf a b h
  · apply resolveCollision_of_overlap_nonpos
    unfold overlapOf
    linarith

theorem sqrtExact_mul_self (q : ℚ) (hq : 0 ≤ q) : sqrtExact (q * q) = q := by
  have hnum : 0 ≤ q.num := Rat.num_nonneg.mpr hq
  unfold sqrtExact
  rw [Rat.mul_self_num, Rat.mul_self_den, Int.natAbs_mul, Nat.sqrt_eq, Nat.sqrt_eq]
  have h1 : ((q.num.natAbs : ℕ) : ℚ) = ((q.num : ℤ) : ℚ) := by
    rw [← Int.cast_natCast, Int.natAbs_of_nonneg hnum]
  rw [h1]
  exact Rat.num_div_den q

theorem centreDist_sqrtExact_of_horizontal (a b : Ball ℚ) (d : ℚ) (hd : 0 ≤ d)
    (hx : b.position.x - a.position.x = d) (hy : b.position.y - a.position.y = 0) :
    centreDist sqrtExact a b = d := by
  unfold centreDist centreDelta
  simp only [Vector2f.sub_x, Vector2f.sub_y, hx, hy, mul_zero, add_zero]
  exact sqrtExact_mul_self d hd

/-- C2 at a concrete input: two balls of radius 20 whose centres are 50 apart
are returned unchanged. -/
theorem resolveCollision_noop_witness :
    resolveCollision sqrtExact (mkBall 20 ⟨0, 0⟩ ⟨10, 0⟩) (mkBall 20 ⟨50, 0⟩ ⟨-10, 0⟩) =
      (mkBall 20 ⟨0, 0⟩ ⟨10, 0⟩, mkBall 20 ⟨50, 0⟩ ⟨-10, 0⟩) :=
  resolveCollision_noop sqrtExact _ _ (Or.inr (by
    rw [centreDist_sqrtExact_of_horizontal _ _ 50 (by norm_num)
      (by norm_num [mkBall]) (by norm_num [mkBall])]
    norm_num [mkBall]))

/-- C3. `resolveCollision` conserves total momentum: for two balls of
positive mass (whatever their elasticities, in particular when the
restitution is 1) the masses are unchanged and
`a.mass * a.velocity + b.mass * b.velocity` has the same value after the call
as before it, in every branch of the function. -/
theorem resolveCollision_momentum (sqrtf : K → K) (a b : Ball K)
    (ha : 0 < a.mass) (hb : 0 < b.mass) :
    (resolveCollision sqrtf a b).1.mass = a.mass ∧
    (resolveCollision sqrtf a b).2.mass = b.mass ∧
    (resolveCollision sqrtf a b).1.mass * (resolveCollision sqrtf a b).1.velocity +
        (resolveCollision sqrtf a b).2.mass * (resolveCollision sqrtf a b).2.velocity =
      a.mass * a.velocity + b.mass * b.velocity := by
  by_cases h0 : centreDist sqrtf a b = 0
  · simp [resolveCollision_of_dist_eq_zero sqrtf a b h0]
  by_cases h1 : overlapOf sqrtf a b > 0
  · rw [resolveCollision_of_overlap sqrtf a b h0 h1]
    split_ifs with h2
    · simp
    · have hma : a.mass ≠ 0 := ne_of_gt ha
      have hmb : b.mass ≠ 0 := ne_of_gt hb
      refine ⟨rfl, rfl, ?_⟩
      rw [Vector2f.ext_iff']
      simp only [Vector2f.add_x, Vector2f.add_y, Vector2f.sub_x, Vector2f.sub_y,
        Vector2f.smul_x, Vector2f.smul_y, Vector2f.div_x, Vector2f.div_y]
      constructor <;> field_simp <;> ring
  · simp [resolveCollision_of_overlap_nonpos sqrtf a b h1]

/-- C3 at a concrete input: the head-on pair of C4 (an impulse is applied). -/
theorem resolveCollision_momentum_witness :
    (resolveCollision sqrtExact (mkBall 20 ⟨0, 0⟩ ⟨10, 0⟩) (mkBall 20 ⟨30, 0⟩ ⟨-10, 0⟩)).1.mass *
        (resolveCollision sqrtExact (mkBall 20 ⟨0, 0⟩ ⟨10, 0⟩)
          (mkBall 20 ⟨30, 0⟩ ⟨-10, 0⟩)).1.velocity +
      (resolveCollision sqrtExact (mkBall 20 ⟨0, 0⟩ ⟨10, 0⟩) (mkBall 20 ⟨30, 0⟩ ⟨-10, 0⟩)).2.mass *
        (resolveCollision sqrtExact (mkBall 20 ⟨0, 0⟩ ⟨10, 0⟩)
          (mkBall 20 ⟨30, 0⟩ ⟨-10, 0⟩)).2.velocity =
      (mkBall 20 ⟨0, 0⟩ ⟨10, 0⟩ : Ball ℚ).mass * (mkBall 20 ⟨0, 0⟩ ⟨10, 0⟩ : Ball ℚ).velocity +
      (mkBall 20 ⟨30, 0⟩ ⟨-10, 0⟩ : Ball ℚ).mass *
        (mkBall 20 ⟨30, 0⟩ ⟨-10, 0⟩ : Ball ℚ).velocity :=
  (resolveCollision_momentum sqrtExact (mkBall 20 ⟨0, 0⟩ ⟨10, 0⟩) (mkBall 20 ⟨30, 0⟩ ⟨-10, 0⟩)
    (by norm_num [mkBall]) (by norm_num [mkBall])).2.2

theorem resolveCollision_position_of_overlap (sqrtf : K → K) (a b : Ball K)
    (h0 : 0 < centreDist sqrtf a b) (h1 : centreDist sqrtf a b < a.radius + b.radius) :
    (resolveCollision sqrtf a b).1.position =
        a.position + (-normalOf sqrtf a b) * (overlapOf sqrtf a b / 2) ∧
    (resolveCollision sqrtf a b).2.position =
        b.position + normalOf sqrtf a b * (overlapOf sqrtf a b / 2) := by
  have hne : centreDist sqrtf a b ≠ 0 := ne_of_gt h0
  have hov : overlapOf sqrtf a b > 0 := by unfold overlapOf; linarith
  rw [resolveCollision_of_overlap sqrtf a b hne hov]
  split_ifs <;> exact ⟨rfl, rfl⟩

theorem resolveCollision_midpoint_of_overlap (sqrtf : K → K) (a b : Ball K)
    (h0 : 0 < centreDist sqrtf a b) (h1 : centreDist sqrtf a b < a.radius + b.radius) :
    ((resolveCollision sqrtf a b).1.position + (resolveCollision sqrtf a b).2.position) / (2 : K) =
        (a.position + b.position) / (2 : K) := by
  obtain ⟨hpa, hpb⟩ := resolveCollision_position_of_overlap sqrtf a b h0 h1
  rw [hpa, hpb, Vector2f.ext_iff']
  simp only [Vector2f.add_x, Vector2f.add_y, Vector2f.neg_x, Vector2f.neg_y,
    Vector2f.mul_x, Vector2f.mul_y, Vector2f.div_x, Vector2f.div_y]
  constructor <;> ring

/-- When the value `sqrtf` returns is the Euclidean distance of the centres,
the squared distance of the centres after the call is
`(a.radius + b.radius) ^ 2`. -/
theorem resolveCollision_sqDist_of_exact (sqrtf : K → K) (a b : Ball K)
    (hd : IsCentreDistance (centreDist sqrtf a b) a b)
    (h0 : 0 < centreDist sqrtf a b) (h1 : centreDist sqrtf a b < a.radius + b.radius) :
    IsCentreDistance (a.radius + b.radius)
      (resolveCollision sqrtf a b).1 (resolveCollision sqrtf a b).2 := by
  have hne : centreDist sqrtf a b ≠ 0 := ne_of_gt h0
  obtain ⟨hpa, hpb⟩ := resolveCollision_position_of_overlap sqrtf a b h0 h1
  refine ⟨by linarith, ?_⟩
  obtain ⟨-, hsq⟩ := hd
  unfold centreDelta at hsq ⊢
  rw [hpa, hpb]
  unfold normalOf overlapOf centreDelta
  simp only [Vector2f.add_x, Vector2f.add_y, Vector2f.sub_x, Vector2f.sub_y,
    Vector2f.neg_x, Vector2f.neg_y, Vector2f.mul_x, Vector2f.mul_y, Vector2f.div_x,
    Vector2f.div_y] at hsq ⊢
  field_simp
  linear_combination (4 * (a.radius + b.radius) ^ 2) * hsq

/-- The real square root returns the Euclidean distance of the centres. -/
theorem isCentreDistance_real (a b : Ball ℝ) :
    IsCentreDistance (centreDist Real.sqrt a b) a b :=
  ⟨Real.sqrt_nonneg _, Real.mul_self_sqrt (add_nonneg (mul_self_nonneg _) (mul_self_nonneg _))⟩

/-- C10. Positional correction in `resolveCollision`, in real arithmetic
with the real square root: for every two balls with
`0 < dist < a.radius + b.radius`, whatever their masses and velocities (so in
both velocity branches), `a` is moved by `-normal * (overlap / 2)` and `b` by
`normal * (overlap / 2)`; after the call the distance between the centres,
computed as `resolveCollision` computes it, is `a.radius + b.radius`; and the
midpoint of the two centres is unchanged. -/
theorem resolveCollision_separates (a b : Ball ℝ)
    (h0 : 0 < centreDist Real.sqrt a b)
    (h1 : centreDist Real.sqrt a b < a.radius + b.radius) :
    (resolveCollision Real.sqrt a b).1.position =
        a.position + (-normalOf Real.sqrt a b) * (overlapOf Real.sqrt a b / 2) ∧
    (resolveCollision Real.sqrt a b).2.position =
        b.position + normalOf Real.sqrt a b * (overlapOf Real.sqrt a b / 2) ∧
    centreDist Real.sqrt (resolveCollision Real.sqrt a b).1 (resolveCollision Real.sqrt a b).2 =
        a.radius + b.radius ∧
    ((resolveCollision Real.sqrt a b).1.position +
        (resolveCollision Real.sqrt a b).2.position) / (2 : ℝ) =
      (a.position + b.position) / (2 : ℝ) := by
  obtain ⟨hpa, hpb⟩ := resolveCollision_position_of_overlap Real.sqrt a b h0 h1
  refine ⟨hpa, hpb, ?_, resolveCollision_midpoint_of_overlap Real.sqrt a b h0 h1⟩
  obtain ⟨hnn, hsq⟩ :=
    resolveCollision_sqDist_of_exact Real.sqrt a b (isCentreDistance_real a b) h0 h1
  unfold centreDist
  rw [← hsq]
  exact Real.sqrt_mul_self hnn

theorem centreDist_real_diagonal (va vb : Vector2f ℝ) :
    centreDist Real.sqrt (headOnBall ⟨0, 0⟩ va) (headOnBall ⟨1, 1⟩ vb) = Real.sqrt 2 := by
  unfold centreDist centreDelta
  norm_num [headOnBall, mkBall]

theorem centreDist_real_horizontal (va vb : Vector2f ℝ) :
    centreDist Real.sqrt (headOnBall ⟨0, 0⟩ va) (headOnBall ⟨30, 0⟩ vb) = 30 := by
  unfold centreDist centreDelta
  have h : Real.sqrt (30 * 30) = 30 := Real.sqrt_mul_self (by norm_num)
  norm_num [headOnBall, mkBall] at h ⊢
  exact h

theorem sqrt_two_lt_forty : Real.sqrt 2 < 40 :=
  (Real.sqrt_lt' (by norm_num)).mpr (by norm_num)

/-- C10 at a concrete input: radii 20, centres (0,0) and (1,1), at the
irrational distance `√2`; after the call the centres are 40 apart. -/
theorem resolveCollision_separates_witness :
    centreDist Real.sqrt
      (resolveCollision Real.sqrt (headOnBall ⟨0, 0⟩ ⟨3, 3⟩) (headOnBall ⟨1, 1⟩ ⟨-3, -3⟩)).1
      (resolveCollision Real.sqrt (headOnBall ⟨0, 0⟩ ⟨3, 3⟩) (headOnBall ⟨1, 1⟩ ⟨-3, -3⟩)).2 =
      20 + 20 :=
  (resolveCollision_separates (headOnBall ⟨0, 0⟩ ⟨3, 3⟩) (headOnBall ⟨1, 1⟩ ⟨-3, -3⟩)
    (by rw [centreDist_real_diagonal]; exact Real.sqrt_pos.mpr (by norm_num))
    (by rw [centreDist_real_diagonal]
        exact lt_of_lt_of_eq sqrt_two_lt_forty (by norm_num [headOnBall, mkBall]))).2.2.1

/-- The head-on swap for any `sqrtf`, when the value it returns is the
Euclidean distance of the centres. -/
theorem resolveCollision_swap_of_exact (sqrtf : K → K) (a b : Ball K)
    (hd : IsCentreDistance (centreDist sqrtf a b) a b)
    (h0 : 0 < centreDist sqrtf a b)
    (h1 : centreDist sqrtf a b < a.radius + b.radius)
    (hm : a.mass = b.mass) (hmpos : 0 < a.mass)
    (hea : a.elasticity = 1) (heb : b.elasticity = 1)
    (hopp : b.velocity = -a.velocity)
    (hpar : a.velocity.x * (centreDelta a b).y = a.velocity.y * (centreDelta a b).x)
    (happ : velAlongNormal sqrtf a b < 0) :
    (resolveCollision sqrtf a b).1.velocity = b.velocity ∧
    (resolveCollision sqrtf a b).2.velocity = a.velocity := by
  have hne : centreDist sqrtf a b ≠ 0 := ne_of_gt h0
  have hov : overlapOf sqrtf a b > 0 := by unfold overlapOf; linarith
  have hma : a.mass ≠ 0 := ne_of_gt hmpos
  have hmb : b.mass ≠ 0 := hm ▸ hma
  obtain ⟨-, hsq⟩ := hd
  rw [resolveCollision_of_overlap sqrtf a b hne hov, if_neg (not_lt.mpr (le_of_lt happ))]
  simp only [hea, heb, ← hm]
  unfold velAlongNormal normalOf
  generalize centreDist sqrtf a b = d at hne hsq
  generalize centreDelta a b = dl at hsq hpar
  rw [hopp, Vector2f.ext_iff', Vector2f.ext_iff']
  simp only [Vector2f.add_x, Vector2f.add_y, Vector2f.sub_x, Vector2f.sub_y,
    Vector2f.neg_x, Vector2f.neg_y, Vector2f.smul_x, Vector2f.smul_y, Vector2f.div_x,
    Vector2f.div_y, neg_neg]
  refine ⟨⟨?_, ?_⟩, ⟨?_, ?_⟩⟩
  · field_simp
    linear_combination (4 * a.mass * a.velocity.x) * hsq + (4 * a.mass * dl.y) * hpar
  · field_simp
    linear_combination (4 * a.mass * a.velocity.y) * hsq - (4 * a.mass * dl.x) * hpar
  · field_simp
    linear_combination (-(4 * a.mass * a.velocity.x)) * hsq - (4 * a.mass * dl.y) * hpar
  · field_simp
    linear_combination (-(4 * a.mass * a.velocity.y)) * hsq + (4 * a.mass * dl.x) * hpar

/-- C4. Head-on elastic swap in `resolveCollision`, in real arithmetic with
the real square root: every two overlapping balls
(`0 < dist < a.radius + b.radius`) of equal positive mass, both of elasticity
1, with opposite velocities (`b.velocity = -a.velocity`) parallel to the line
of centres and approaching (`velAlongNormal < 0`), leave the call with their
velocities swapped. -/
theorem resolveCollision_headOn_swap (a b : Ball ℝ)
    (h0 : 0 < centreDist Real.sqrt a b)
    (h1 : centreDist Real.sqrt a b < a.radius + b.radius)
    (hm : a.mass = b.mass) (hmpos : 0 < a.mass)
    (hea : a.elasticity = 1) (heb : b.elasticity = 1)
    (hopp : b.velocity = -a.velocity)
    (hpar : a.velocity.x * (centreDelta a b).y = a.velocity.y * (centreDelta a b).x)
    (happ : velAlongNormal Real.sqrt a b < 0) :
    (resolveCollision Real.sqrt a b).1.velocity = b.velocity ∧
    (resolveCollision Real.sqrt a b).2.velocity = a.velocity :=
  resolveCollision_swap_of_exact Real.sqrt a b (isCentreDistance_real a b) h0 h1 hm hmpos
    hea heb hopp hpar happ

/-- C4 at two concrete inputs, radii 20, mass 1, elasticity 1: the pair of
the claim, `a` at (0,0) with velocity (10,0) and `b` at (30,0) with velocity
(-10,0); and a diagonal pair at the irrational distance `√2`, `a` at (0,0)
with velocity (3,3) and `b` at (1,1) with velocity (-3,-3). -/
theorem resolveCollision_headOn_swap_witness :
    ((resolveCollision Real.sqrt (headOnBall ⟨0, 0⟩ ⟨10, 0⟩)
        (headOnBall ⟨30, 0⟩ ⟨-10, 0⟩)).1.velocity = ⟨-10, 0⟩ ∧
      (resolveCollision Real.sqrt (headOnBall ⟨0, 0⟩ ⟨10, 0⟩)
        (headOnBall ⟨30, 0⟩ ⟨-10, 0⟩)).2.velocity = ⟨10, 0⟩) ∧
    ((resolveCollision Real.sqrt (headOnBall ⟨0, 0⟩ ⟨3, 3⟩)
        (headOnBall ⟨1, 1⟩ ⟨-3, -3⟩)).1.velocity = ⟨-3, -3⟩ ∧
      (resolveCollision Real.sqrt (headOnBall ⟨0, 0⟩ ⟨3, 3⟩)
        (headOnBall ⟨1, 1⟩ ⟨-3, -3⟩)).2.velocity = ⟨3, 3⟩) := by
  have hs2 : (0 : ℝ) < Real.sqrt 2 := Real.sqrt_pos.mpr (by norm_num)
  refine ⟨resolveCollision_headOn_swap (headOnBall ⟨0, 0⟩ ⟨10, 0⟩) (headOnBall ⟨30, 0⟩ ⟨-10, 0⟩)
      ?_ ?_ rfl ?_ rfl rfl ?_ ?_ ?_,
    resolveCollision_headOn_swap (headOnBall ⟨0, 0⟩ ⟨3, 3⟩) (headOnBall ⟨1, 1⟩ ⟨-3, -3⟩)
      ?_ ?_ rfl ?_ rfl rfl ?_ ?_ ?_⟩
  · rw [centreDist_real_horizontal]; norm_num
  · rw [centreDist_real_horizontal]; norm_num [headOnBall, mkBall]
  · norm_num [headOnBall, mkBall]
  · rw [Vector2f.ext_iff']; norm_num [headOnBall, mkBall]
  · norm_num [centreDelta, headOnBall, mkBall]
  · unfold velAlongNormal normalOf
    rw [centreDist_real_horizontal]
    norm_num [centreDelta, headOnBall, mkBall]
  · rw [centreDist_real_diagonal]; exact hs2
  · rw [centreDist_real_diagonal]
    exact lt_of_lt_of_eq sqrt_two_lt_forty (by norm_num [headOnBall, mkBall])
  · norm_num [headOnBall, mkBall]
  · rw [Vector2f.ext_iff']; norm_num [headOnBall, mkBall]
  · norm_num [centreDelta, headOnBall, mkBall]
  · unfold velAlongNormal normalOf
    rw [centreDist_real_diagonal]
    norm_num [centreDelta, headOnBall, mkBall]

/-! ## Integration and window edges -/

omit [LinearOrderedField K] in
@[simp] theorem recordTrajectory_position (ball : Ball K) :
    ball.recordTrajectory.position = ball.position := rfl

omit [LinearOrderedField K] in
@[simp] theorem recordTrajectory_velocity (ball : Ball K) :
    ball.recordTrajectory.velocity = ball.velocity := rfl

theorem updatePhysics_position (ball : Ball K) (dt : K) (windowSize : Vector2u) :
    (ball.updatePhysics dt windowSize).position =
      ((ball.integrate dt).bounceOnWindow windowSize).position := rfl

theorem updatePhysics_velocity (ball : Ball K) (dt : K) (windowSize : Vector2u) :
    (ball.updatePhysics dt windowSize).velocity =
      ((ball.integrate dt).bounceOnWindow windowSize).velocity := rfl

/-- C5 as the code has it.  After the integration move of `updatePhysics`,
on each axis: if `position - radius < 0` the position becomes `radius`;
otherwise, if `position + radius > boundsSize`, it becomes
`boundsSize - radius`; in both cases the velocity component becomes
`-elasticity` times its post-integration value (so its absolute value is
`elasticity` times the previous one when `0 ≤ elasticity`); when neither test
holds, position and velocity on that axis keep their post-integration values.
The two axes are treated in the same call, each by its own tests. -/
theorem updatePhysics_window_bounce (ball : Ball K) (dt : K) (windowSize : Vector2u) :
    (((ball.integrate dt).position.x - ball.radius < 0 →
        (ball.updatePhysics dt windowSize).position.x = ball.radius ∧
        (ball.updatePhysics dt windowSize).velocity.x =
          -ball.elasticity * (ball.integrate dt).velocity.x) ∧
      (¬ (ball.integrate dt).position.x - ball.radius < 0 →
        (ball.integrate dt).position.x + ball.radius > (windowSize.x : K) →
        (ball.updatePhysics dt windowSize).position.x = (windowSize.x : K) - ball.radius ∧
        (ball.updatePhysics dt windowSize).velocity.x =
          -ball.elasticity * (ball.integrate dt).velocity.x) ∧
      (¬ (ball.integrate dt).position.x - ball.radius < 0 →
        ¬ (ball.integrate dt).position.x + ball.radius > (windowSize.x : K) →
        (ball.updatePhysics dt windowSize).position.x = (ball.integrate dt).position.x ∧
        (ball.updatePhysics dt windowSize).velocity.x = (ball.integrate dt).velocity.x) ∧
      (0 ≤ ball.elasticity →
        ((ball.integrate dt).position.x - ball.radius < 0 ∨
          (ball.integrate dt).position.x + ball.radius > (windowSize.x : K)) →
        |(ball.updatePhysics dt windowSize).velocity.x| =
          ball.elasticity * |(ball.integrate dt).velocity.x|)) ∧
    (((ball.integrate dt).position.y - ball.radius < 0 →
        (ball.updatePhysics dt windowSize).position.y = ball.radius ∧
        (ball.updatePhysics dt windowSize).velocity.y =
          -ball.elasticity * (ball.integrate dt).velocity.y) ∧
      (¬ (ball.integrate dt).position.y - ball.radius < 0 →
        (ball.integrate dt).position.y + ball.radius > (windowSize.y : K) →
        (ball.updatePhysics dt windowSize).position.y = (windowSize.y : K) - ball.radius ∧
        (ball.updatePhysics dt windowSize).velocity.y =
          -ball.elasticity * (ball.integrate dt).velocity.y) ∧
      (¬ (ball.integrate dt).position.y - ball.radius < 0 →
        ¬ (ball.integrate dt).position.y + ball.radius > (windowSize.y : K) →
        (ball.updatePhysics dt windowSize).position.y = (ball.integrate dt).position.y ∧
        (ball.updatePhysics dt windowSize).velocity.y = (ball.integrate dt).velocity.y) ∧
      (0 ≤ ball.elasticity →
        ((ball.integrate dt).position.y - ball.radius < 0 ∨
          (ball.integrate dt).position.y + ball.radius > (windowSize.y : K)) →
        |(ball.updatePhysics dt windowSize).velocity.y| =
          ball.elasticity * |(ball.integrate dt).velocity.y|)) := by
  have key : ∀ v e : K, -v * e = -e * v := fun v e => by ring
  have habs : ∀ v e : K, 0 ≤ e → |(-e * v)| = e * |v| := fun v e he => by
    rw [neg_mul, abs_neg, abs_mul, abs_of_nonneg he]
  have hr : (ball.integrate dt).radius = ball.radius := rfl
  have he : (ball.integrate dt).elasticity = ball.elasticity := rfl
  rw [updatePhysics_position, updatePhysics_velocity]
  generalize ball.integrate dt = m at hr he ⊢
  simp only [Ball.bounceOnWindow, hr, he]
  refine ⟨⟨fun h => ?_, fun h1 h2 => ?_, fun h1 h2 => ?_, fun h0 h => ?_⟩,
    ⟨fun h => ?_, fun h1 h2 => ?_, fun h1 h2 => ?_, fun h0 h => ?_⟩⟩
  · simp only [if_pos h, key, and_self]
  · simp only [if_neg h1, if_pos h2, key, and_self]
  · simp only [if_neg h1, if_neg h2, and_self]
  · by_cases h1 : m.position.x - ball.radius < 0
    · simp only [if_pos h1]
      rw [key, habs _ _ h0]
    · simp only [if_neg h1, if_pos (h.resolve_left h1)]
      rw [key, habs _ _ h0]
  · simp only [if_pos h, key, and_self]
  · simp only [if_neg h1, if_pos h2, key, and_self]
  · simp only [if_neg h1, if_neg h2, and_self]
  · by_cases h1 : m.position.y - ball.radius < 0
    · simp only [if_pos h1]
      rw [key, habs _ _ h0]
    · simp only [if_neg h1, if_pos (h.resolve_left h1)]
      rw [key, habs _ _ h0]

/-- C5 as stated fails when both edges of an axis are outside: a ball of
radius 20 at rest at `x = 15` in a window 30 wide has `x + r = 35 > 30` after
the move, and `updatePhysics` leaves it at `x = 20 = r`, not at `30 - 20`. -/
theorem updatePhysics_both_edges_counterexample :
    ((mkBall 20 ⟨15, 100⟩ ⟨0, 0⟩ : Ball ℚ).integrate (1 / 60)).position.x +
        (mkBall 20 ⟨15, 100⟩ ⟨0, 0⟩ : Ball ℚ).radius > ((⟨30, 700⟩ : Vector2u).x : ℚ) ∧
    ((mkBall 20 ⟨15, 100⟩ ⟨0, 0⟩ : Ball ℚ).updatePhysics (1 / 60) ⟨30, 700⟩).position.x = 20 ∧
    ((mkBall 20 ⟨15, 100⟩ ⟨0, 0⟩ : Ball ℚ).updatePhysics (1 / 60) ⟨30, 700⟩).position.x ≠
      ((⟨30, 700⟩ : Vector2u).x : ℚ) - (mkBall 20 ⟨15, 100⟩ ⟨0, 0⟩ : Ball ℚ).radius := by
  have h : ((mkBall 20 ⟨15, 100⟩ ⟨0, 0⟩ : Ball ℚ).updatePhysics (1 / 60)
      ⟨30, 700⟩).position.x = 20 := by
    norm_num [Ball.updatePhysics, Ball.recordTrajectory, Ball.bounceOnWindow, Ball.integrate,
      mkBall]
  refine ⟨?_, h, ?_⟩
  · norm_num [Ball.integrate, mkBall]
  · rw [h]; norm_num [mkBall]

/-! ## Loops over the balls -/

theorem foldl_preserves {α β : Type} (P : β → Prop) (f : β → α → β) (l : List α) (b : β)
    (hb : P b) (hf : ∀ b a, P b → P (f b a)) : P (l.foldl f b) := by
  induction l generalizing b with
  | nil => exact hb
  | cons a l ih => exact ih (f b a) (hf b a hb)

omit [LinearOrderedField K] in
theorem getElem?_forEachBall (f : ℕ → Ball K → Ball K) (i : ℕ) (bs : List (Ball K))
    (k : ℕ) :
    (forEachBall f i bs)[k]? = (bs[k]?).map (f (i + k)) := by
  induction bs generalizing i k with
  | nil => simp [forEachBall]
  | cons b bs ih =>
    cases k with
    | zero => simp [forEachBall]
    | succ k =>
      simp only [forEachBall, List.getElem?_cons_succ, ih]
      rw [show i + 1 + k = i + (k + 1) by omega]

omit [LinearOrderedField K] in
theorem forall_mem_forEachBall (R : Ball K → Prop) (f : ℕ → Ball K → Ball K)
    (hf : ∀ i b, R b → R (f i b)) (i : ℕ) (bs : List (Ball K)) (h : ∀ b ∈ bs, R b) :
    ∀ b ∈ forEachBall f i bs, R b := by
  induction bs generalizing i with
  | nil => simp [forEachBall]
  | cons b bs ih =>
    intro c hc
    simp only [forEachBall, List.mem_cons] at hc
    rcases hc with rfl | hc
    · exact hf i b (h b (List.mem_cons_self _ _))
    · exact ih (i + 1) (fun x hx => h x (List.mem_cons_of_mem _ hx)) c hc

theorem handlePlatformCollision_trajectoryPoints (ball : Ball K) (p : FloatRect K) :
    (handlePlatformCollision ball p).trajectoryPoints = ball.trajectoryPoints := by
  unfold handlePlatformCollision
  split_ifs <;> rfl

theorem foldl_handlePlatformCollision_trajectoryPoints (platforms : List (FloatRect K))
    (ball : Ball K) :
    (platforms.foldl handlePlatformCollision ball).trajectoryPoints = ball.trajectoryPoints :=
  foldl_preserves (fun b => b.trajectoryPoints = ball.trajectoryPoints) _ platforms ball rfl
    (fun b p hb => (handlePlatformCollision_trajectoryPoints b p).trans hb)

theorem resolveCollision_trajectoryPoints (sqrtf : K → K) (a b : Ball K) :
    (resolveCollision sqrtf a b).1.trajectoryPoints = a.trajectoryPoints ∧
    (resolveCollision sqrtf a b).2.trajectoryPoints = b.trajectoryPoints := by
  unfold resolveCollision
  simp only
  split_ifs <;> exact ⟨rfl, rfl⟩

theorem updatePhysics_trajectoryPoints (ball : Ball K) (dt : K) (windowSize : Vector2u) :
    (ball.updatePhysics dt windowSize).trajectoryPoints =
      if (ball.trajectoryPoints ++ [(ball.updatePhysics dt windowSize).position]).length > 150
      then (ball.trajectoryPoints ++ [(ball.updatePhysics dt windowSize).position]).tail
      else ball.trajectoryPoints ++ [(ball.updatePhysics dt windowSize).position] := rfl

theorem updatePhysics_trajectory_length (ball : Ball K) (dt : K) (windowSize : Vector2u)
    (h : ball.trajectoryPoints.length ≤ 150) :
    (ball.updatePhysics dt windowSize).trajectoryPoints.length ≤ 150 := by
  rw [updatePhysics_trajectoryPoints]
  split_ifs with hlen
  · simp only [List.length_tail, List.length_append, List.length_singleton]
    omega
  · exact not_lt.mp hlen

theorem collisionStage_preserves (P : List (Ball K) → Prop) (sqrtf : K → K) (dragging : Bool)
    (draggingIndex : ℤ)
    (h : ∀ bs i j, P bs → P (collisionBody sqrtf dragging draggingIndex i bs j))
    (balls : List (Ball K)) (hb : P balls) :
    P (collisionStage sqrtf dragging draggingIndex balls) := by
  unfold collisionStage
  apply foldl_preserves P _ _ _ hb
  intro bs i hbs
  exact foldl_preserves P _ _ _ hbs (fun bs1 j h1 => h bs1 i j h1)

theorem isDragged_true_iff (draggingIndex : ℤ) (i : ℕ) :
    isDragged true draggingIndex i = true ↔ (i : ℤ) = draggingIndex := by
  simp [isDragged]

theorem collisionBody_getElem?_dragged (sqrtf : K → K) (d i j : ℕ) (bs : List (Ball K)) :
    (collisionBody sqrtf true (d : ℤ) i bs j)[d]? = bs[d]? := by
  unfold collisionBody
  split_ifs with h
  · rfl
  · simp only [Bool.or_eq_true, isDragged_true_iff, Nat.cast_inj, not_or] at h
    unfold resolvePairAt
    split
    · rw [List.getElem?_set_ne h.2, List.getElem?_set_ne h.1]
    · rfl

theorem collisionBody_trajectory_bound (sqrtf : K → K) (dragging : Bool) (draggingIndex : ℤ)
    (i j : ℕ) (bs : List (Ball K)) (h : ∀ b ∈ bs, b.trajectoryPoints.length ≤ 150) :
    ∀ b ∈ collisionBody sqrtf dragging draggingIndex i bs j,
      b.trajectoryPoints.length ≤ 150 := by
  unfold collisionBody
  split_ifs
  · exact h
  · unfold resolvePairAt
    split
    · rename_i a b ha hb
      have hma : a ∈ bs := List.getElem?_mem ha
      have hmb : b ∈ bs := List.getElem?_mem hb
      intro c hc
      rcases List.mem_or_eq_of_mem_set hc with hc | rfl
      · rcases List.mem_or_eq_of_mem_set hc with hc | rfl
        · exact h c hc
        · rw [(resolveCollision_trajectoryPoints sqrtf a b).1]; exact h a hma
      · rw [(resolveCollision_trajectoryPoints sqrtf a b).2]; exact h b hmb
    · exact h

theorem simulationStep_trajectory_bound (sqrtf : K → K) (dragging : Bool) (draggingIndex : ℤ)
    (gravity : Vector2f K) (dt : K) (windowSize : Vector2u) (platforms : List (FloatRect K))
    (balls : List (Ball K)) (h : ∀ b ∈ balls, b.trajectoryPoints.length ≤ 150) :
    ∀ b ∈ simulationStep sqrtf dragging draggingIndex gravity dt windowSize platforms balls,
      b.trajectoryPoints.length ≤ 150 := by
  unfold simulationStep moveStage
  apply forall_mem_forEachBall (fun b => b.trajectoryPoints.length ≤ 150)
  · intro i b hb
    show (if isDragged dragging draggingIndex i then b
      else moveBall dt windowSize platforms b).trajectoryPoints.length ≤ 150
    split_ifs
    · exact hb
    · unfold moveBall
      rw [foldl_handlePlatformCollision_trajectoryPoints]
      exact updatePhysics_trajectory_length b dt windowSize hb
  · apply collisionStage_preserves (fun bs => ∀ b ∈ bs, b.trajectoryPoints.length ≤ 150)
    · intro bs i j hbs
      exact collisionBody_trajectory_bound sqrtf dragging draggingIndex i j bs hbs
    · unfold forceStage
      apply forall_mem_forEachBall (fun b => b.trajectoryPoints.length ≤ 150) _ _ _ _ h
      intro i b hb
      show (if isDragged dragging draggingIndex i then b
        else b.updateForces gravity).trajectoryPoints.length ≤ 150
      split_ifs
      · exact hb
      · exact hb

theorem runFrames_trajectory_bound (sqrtf : K → K) (platforms : List (FloatRect K))
    (frames : List (FrameInput K)) (balls : List (Ball K))
    (h : ∀ b ∈ balls, b.trajectoryPoints.length ≤ 150) :
    ∀ b ∈ runFrames sqrtf platforms frames balls, b.trajectoryPoints.length ≤ 150 := by
  unfold runFrames
  refine foldl_preserves (fun bs : List (Ball K) => ∀ b ∈ bs, b.trajectoryPoints.length ≤ 150)
    _ _ _ h ?_
  intro bs fr hbs
  show ∀ b ∈ frame sqrtf platforms bs fr, b.trajectoryPoints.length ≤ 150
  unfold frame
  split_ifs
  · exact hbs
  · exact simulationStep_trajectory_bound sqrtf _ _ _ _ _ platforms bs hbs

/-! ## Trajectory history -/

/-- C7. The trajectory history is a FIFO bounded by 150.  For a ball whose
history holds at most 150 points, after `updatePhysics` the history still
holds at most 150 points and its last element is the new position; when the
history held exactly 150 points it is the old history without its first
element followed by the new position, and when it held fewer it is the old
history followed by the new position.  Hence the bound is kept by the third
stage (`updatePhysics` then the platforms), and by any sequence of frames of
the main loop applied to balls whose histories start within the bound. -/
theorem updatePhysics_trajectory_fifo (ball : Ball K) (dt : K) (windowSize : Vector2u)
    (h : ball.trajectoryPoints.length ≤ 150) :
    (ball.updatePhysics dt windowSize).trajectoryPoints.length ≤ 150 ∧
    (ball.updatePhysics dt windowSize).trajectoryPoints.getLast? =
      some (ball.updatePhysics dt windowSize).position ∧
    (ball.trajectoryPoints.length = 150 →
      (ball.updatePhysics dt windowSize).trajectoryPoints =
        ball.trajectoryPoints.tail ++ [(ball.updatePhysics dt windowSize).position]) ∧
    (ball.trajectoryPoints.length < 150 →
      (ball.updatePhysics dt windowSize).trajectoryPoints =
        ball.trajectoryPoints ++ [(ball.updatePhysics dt windowSize).position]) ∧
    (∀ (sqrtf : K → K) (platforms : List (FloatRect K)) (frames : List (FrameInput K))
        (others : List (Ball K)), (∀ b ∈ others, b.trajectoryPoints.length ≤ 150) →
      ∀ b ∈ runFrames sqrtf platforms frames (ball :: others),
        b.trajectoryPoints.length ≤ 150) := by
  have hfull : ball.trajectoryPoints.length = 150 →
      (ball.updatePhysics dt windowSize).trajectoryPoints =
        ball.trajectoryPoints.tail ++ [(ball.updatePhysics dt windowSize).position] := by
    intro hlen
    have hne : ball.trajectoryPoints ≠ [] := by
      intro h0; rw [h0] at hlen; simp at hlen
    rw [updatePhysics_trajectoryPoints, if_pos (by simp [hlen]),
      List.tail_append_of_ne_nil hne]
  have hpart : ball.trajectoryPoints.length < 150 →
      (ball.updatePhysics dt windowSize).trajectoryPoints =
        ball.trajectoryPoints ++ [(ball.updatePhysics dt windowSize).position] := by
    intro hlen
    rw [updatePhysics_trajectoryPoints, if_neg]
    simp only [List.length_append, List.length_singleton]
    omega
  refine ⟨updatePhysics_trajectory_length ball dt windowSize h, ?_, hfull, hpart, ?_⟩
  · rcases Nat.lt_or_eq_of_le h with hlt | heq
    · rw [hpart hlt, List.getLast?_concat]
    · rw [hfull heq, List.getLast?_concat]
  · intro sqrtf platforms frames others hothers
    apply runFrames_trajectory_bound
    intro b hb
    rcases List.mem_cons.mp hb with rfl | hb
    · exact h
    · exact hothers b hb

/-- C7 at a concrete input: a ball whose history holds 150 points. -/
theorem updatePhysics_trajectory_fifo_witness :
    (fullHistoryBall.updatePhysics (1 / 60) ⟨1000, 700⟩).trajectoryPoints.length ≤ 150 ∧
    (fullHistoryBall.updatePhysics (1 / 60) ⟨1000, 700⟩).trajectoryPoints =
      fullHistoryBall.trajectoryPoints.tail ++
        [(fullHistoryBall.updatePhysics (1 / 60) ⟨1000, 700⟩).position] :=
  ⟨(updatePhysics_trajectory_fifo fullHistoryBall (1 / 60) ⟨1000, 700⟩
      (by simp [fullHistoryBall])).1,
    (updatePhysics_trajectory_fifo fullHistoryBall (1 / 60) ⟨1000, 700⟩
      (by simp [fullHistoryBall])).2.2.1 (by simp [fullHistoryBall])⟩

/-! ## The dragged ball -/

omit [LinearOrderedField K] in
theorem forEachBall_getElem?_dragged (g : Ball K → Ball K) (d : ℕ) (bs : List (Ball K)) :
    (forEachBall (fun i b => if isDragged true (d : ℤ) i then b else g b) 0 bs)[d]? = bs[d]? := by
  rw [getElem?_forEachBall]
  have hd : isDragged true (d : ℤ) (0 + d) = true := by
    rw [isDragged_true_iff]; simp
  simp only [hd, if_true]
  cases bs[d]? <;> rfl

/-- C6. The un-paused step never mutates the dragged ball: with `dragging`
true and `draggingIndex` the index `d` of a ball of the vector, after the
three loops (forces, pairwise collisions, `updatePhysics` and platforms) the
ball at index `d` is equal to the ball that was there before, in every field
(position, velocity, acceleration, forces, trajectory history), whatever the
other balls are. -/
theorem simulationStep_frozen (sqrtf : K → K) (d : ℕ) (gravity : Vector2f K) (dt : K)
    (windowSize : Vector2u) (platforms : List (FloatRect K)) (balls : List (Ball K))
    (hd : d < balls.length) :
    (simulationStep sqrtf true (d : ℤ) gravity dt windowSize platforms balls)[d]? =
      some balls[d] := by
  rw [← List.getElem?_eq_getElem hd]
  unfold simulationStep moveStage
  rw [forEachBall_getElem?_dragged]
  refine collisionStage_preserves (fun bs : List (Ball K) => bs[d]? = balls[d]?) sqrtf true (d : ℤ)
    ?_ _ ?_
  · intro bs i j hbs
    show (collisionBody sqrtf true (d : ℤ) i bs j)[d]? = balls[d]?
    rw [collisionBody_getElem?_dragged, hbs]
  · show (forceStage true (d : ℤ) gravity balls)[d]? = balls[d]?
    unfold forceStage
    rw [forEachBall_getElem?_dragged]

/-- C6 at a concrete input: the dragged ball (index 0) overlaps the other
ball, which moves towards it. -/
theorem simulationStep_frozen_witness :
    (simulationStep sqrtExact true ((0 : ℕ) : ℤ) ⟨0, 980⟩ (1 / 60) ⟨1000, 700⟩ [mainPlatform]
      [headOnA, headOnB])[0]? = some headOnA :=
  simulationStep_frozen sqrtExact 0 ⟨0, 980⟩ (1 / 60) ⟨1000, 700⟩ [mainPlatform]
    [headOnA, headOnB] (by decide)

/-! ## Trajectory prediction -/

theorem handlePlatformCollision_withTrajectory (t : List (Vector2f K)) (b : Ball K)
    (p : FloatRect K) :
    handlePlatformCollision (withTrajectory t b) p =
      withTrajectory t (handlePlatformCollision b p) := by
  have h1 : topCond (withTrajectory t b) p ↔ topCond b p := Iff.rfl
  have h2 : bottomCond (withTrajectory t b) p ↔ bottomCond b p := Iff.rfl
  have h3 : leftCond (withTrajectory t b) p ↔ leftCond b p := Iff.rfl
  have h4 : rightCond (withTrajectory t b) p ↔ rightCond b p := Iff.rfl
  unfold handlePlatformCollision
  simp only [h1, h2, h3, h4]
  split_ifs <;> rfl

theorem foldl_handlePlatformCollision_withTrajectory (t : List (Vector2f K))
    (platforms : List (FloatRect K)) (b : Ball K) :
    platforms.foldl handlePlatformCollision (withTrajectory t b) =
      withTrajectory t (platforms.foldl handlePlatformCollision b) := by
  induction platforms generalizing b with
  | nil => rfl
  | cons p ps ih =>
    simp only [List.foldl_cons, handlePlatformCollision_withTrajectory, ih]

theorem ghostStep_withTrajectory (gravity : Vector2f K) (dt : K) (platforms : List (FloatRect K))
    (windowSize : Vector2u) (t : List (Vector2f K)) (b : Ball K) :
    ghostStep gravity dt platforms windowSize (withTrajectory t b) =
      withTrajectory t (ghostStep gravity dt platforms windowSize b) := by
  unfold ghostStep
  rw [← foldl_handlePlatformCollision_withTrajectory]
  rfl

theorem moveBall_updateForces_eq_ghostStep (gravity : Vector2f K) (dt : K)
    (platforms : List (FloatRect K)) (windowSize : Vector2u) (b : Ball K) :
    ∃ t, moveBall dt windowSize platforms (b.updateForces gravity) =
      withTrajectory t (ghostStep gravity dt platforms windowSize b) := by
  refine ⟨((b.updateForces gravity).updatePhysics dt windowSize).trajectoryPoints, ?_⟩
  unfold moveBall ghostStep
  rw [← foldl_handlePlatformCollision_withTrajectory]
  rfl

theorem iterate_live_eq_ghost (gravity : Vector2f K) (dt : K) (platforms : List (FloatRect K))
    (windowSize : Vector2u) (b : Ball K) (k : ℕ) :
    ∃ t, (fun c : Ball K => moveBall dt windowSize platforms (c.updateForces gravity))^[k] b =
      withTrajectory t ((ghostStep gravity dt platforms windowSize)^[k] b) := by
  induction k with
  | zero => exact ⟨b.trajectoryPoints, rfl⟩
  | succ k ih =>
    obtain ⟨t, ht⟩ := ih
    obtain ⟨t1, ht1⟩ := moveBall_updateForces_eq_ghostStep gravity dt platforms windowSize
      (withTrajectory t ((ghostStep gravity dt platforms windowSize)^[k] b))
    refine ⟨t1, ?_⟩
    rw [Function.iterate_succ_apply', Function.iterate_succ_apply', ht, ht1,
      ghostStep_withTrajectory]
    rfl

theorem simulationStep_singleton (sqrtf : K → K) (draggingIndex : ℤ) (gravity : Vector2f K)
    (dt : K) (windowSize : Vector2u) (platforms : List (FloatRect K)) (b : Ball K) :
    simulationStep sqrtf false draggingIndex gravity dt windowSize platforms [b] =
      [moveBall dt windowSize platforms (b.updateForces gravity)] := rfl

theorem iterate_simulationStep_singleton (sqrtf : K → K) (draggingIndex : ℤ)
    (gravity : Vector2f K) (dt : K) (windowSize : Vector2u) (platforms : List (FloatRect K))
    (b : Ball K) (k : ℕ) :
    (simulationStep sqrtf false draggingIndex gravity dt windowSize platforms)^[k] [b] =
      [(fun c : Ball K => moveBall dt windowSize platforms (c.updateForces gravity))^[k] b] := by
  induction k with
  | zero => rfl
  | succ k ih =>
    rw [Function.iterate_succ_apply', Function.iterate_succ_apply', ih,
      simulationStep_singleton]

theorem simulateLoop_eq_map (addf : K → K → K) (gravity : Vector2f K) (duration dt : K)
    (platforms : List (FloatRect K)) (windowSize : Vector2u) (fuel : ℕ) :
    ∀ (t : K) (ghost : Ball K) (points : List (Vector2f K)),
      simulateLoop addf gravity duration dt platforms windowSize fuel t ghost points =
        (loopCount addf duration dt fuel t).map (fun n => points ++ (List.range n).map
          (fun k => ((ghostStep gravity dt platforms windowSize)^[k + 1] ghost).position)) := by
  induction fuel with
  | zero =>
    intro t ghost points
    by_cases h : t < duration <;> simp [simulateLoop, loopCount, h]
  | succ fuel ih =>
    intro t ghost points
    by_cases h : t < duration
    · simp only [simulateLoop, loopCount, if_pos h, ih, Option.map_map]
      congr 1
      funext n
      simp only [Function.comp_apply, List.range_succ_eq_map, List.map_cons, List.map_map,
        List.append_assoc]
      rfl
    · simp [simulateLoop, loopCount, h]

theorem loopCount_eq_some (addf : K → K → K) (duration dt : K) (n : ℕ) :
    ∀ (fuel : ℕ) (t : K), n ≤ fuel →
      (∀ k < n, (fun s => addf s dt)^[k] t < duration) →
      ¬ (fun s => addf s dt)^[n] t < duration →
      loopCount addf duration dt fuel t = some n := by
  induction n with
  | zero =>
    intro fuel t _ _ hstop
    have hstop1 : ¬ t < duration := hstop
    cases fuel <;> simp [loopCount, hstop1]
  | succ n ih =>
    intro fuel t hfuel hrun hstop
    have hlt : t < duration := hrun 0 (Nat.succ_pos n)
    obtain ⟨fuel1, rfl⟩ : ∃ m, fuel = m + 1 := ⟨fuel - 1, by omega⟩
    simp only [loopCount, if_pos hlt]
    rw [ih fuel1 (addf t dt) (by omega)
      (fun k hk => by
        have := hrun (k + 1) (by omega)
        rwa [Function.iterate_succ_apply] at this)
      (by rwa [Function.iterate_succ_apply] at hstop)]
    rfl

theorem loopCount_of_exact [FloorRing K] (addf : K → K → K) (duration dt : K) (hdt : 0 < dt)
    (hadd : ∀ k : ℕ, k < ⌈duration / dt⌉₊ → addf ((k : K) * dt) dt = ((k : K) + 1) * dt)
    (fuel : ℕ) (hfuel : ⌈duration / dt⌉₊ ≤ fuel) :
    loopCount addf duration dt fuel 0 = some ⌈duration / dt⌉₊ := by
  have hcount : ∀ k : ℕ, k ≤ ⌈duration / dt⌉₊ →
      (fun s => addf s dt)^[k] (0 : K) = (k : K) * dt := by
    intro k
    induction k with
    | zero => intro _; simp
    | succ k ih =>
      intro hk
      rw [Function.iterate_succ_apply', ih (by omega), hadd k (by omega)]
      push_cast
      ring
  apply loopCount_eq_some addf duration dt ⌈duration / dt⌉₊ fuel 0 hfuel
  · intro k hk
    rw [hcount k (le_of_lt hk)]
    exact (lt_div_iff₀ hdt).mp (Nat.lt_ceil.mp hk)
  · rw [hcount _ (le_refl _)]
    intro hc
    exact absurd (Nat.lt_ceil.mpr ((lt_div_iff₀ hdt).mpr hc)) (lt_irrefl _)

theorem liveStepPositions_ghost (sqrtf : K → K) (draggingIndex : ℤ) (ball : Ball K)
    (gravity : Vector2f K) (dt : K) (windowSize : Vector2u) (platforms : List (FloatRect K))
    (n : ℕ) :
    LiveStepPositions sqrtf draggingIndex ball gravity dt windowSize platforms n
      ((List.range n).map
        (fun k => ((ghostStep gravity dt platforms windowSize)^[k + 1] ball).position)) := by
  refine ⟨by simp, ?_⟩
  intro k hk
  rw [iterate_simulationStep_singleton]
  obtain ⟨t, ht⟩ := iterate_live_eq_ghost gravity dt platforms windowSize ball (k + 1)
  rw [ht]
  simp only [List.getElem?_map, List.getElem?_range hk, Option.map_some',
    List.getElem?_cons_zero]
  rfl

theorem simulateTrajectory_of_loopCount (addf : K → K → K) (sqrtf : K → K)
    (draggingIndex : ℤ) (ball : Ball K) (gravity : Vector2f K) (duration dt : K)
    (platforms : List (FloatRect K)) (windowSize : Vector2u) (fuel n : ℕ)
    (h : loopCount addf duration dt fuel 0 = some n) :
    ∃ points : List (Vector2f K),
      simulateTrajectoryWithCollisions addf fuel ball gravity duration dt platforms windowSize =
        some points ∧
      LiveStepPositions sqrtf draggingIndex ball gravity dt windowSize platforms n points := by
  refine ⟨_, ?_, liveStepPositions_ghost sqrtf draggingIndex ball gravity dt windowSize
    platforms n⟩
  unfold simulateTrajectoryWithCollisions
  rw [simulateLoop_eq_map, h]
  rfl

/-- C8 as the code has it.  `simulateTrajectoryWithCollisions` returns one
point for each run of the body of `for (float t = 0.f; t < duration; t += dt)`
and the point of index `k` is the position of the ball after `k + 1`
applications of `simulationStep` to the one-ball vector (no pair for the
pairwise stage); when the counter never reaches `duration` within `fuel` runs
nothing is returned.  The number of points is decided by the `float` counter:
whenever its additions are exact on the values it takes (`addf (k * dt) dt =
(k + 1) * dt` below `⌈duration / dt⌉`) and `dt > 0`, the loop returns with
exactly `⌈duration / dt⌉` points. -/
theorem simulateTrajectory_refines_step [FloorRing K] (addf : K → K → K) (sqrtf : K → K)
    (draggingIndex : ℤ) (ball : Ball K) (gravity : Vector2f K) (duration dt : K)
    (platforms : List (FloatRect K)) (windowSize : Vector2u) (fuel : ℕ) :
    (∀ n : ℕ, loopCount addf duration dt fuel 0 = some n →
      ∃ points : List (Vector2f K),
        simulateTrajectoryWithCollisions addf fuel ball gravity duration dt platforms
          windowSize = some points ∧
        LiveStepPositions sqrtf draggingIndex ball gravity dt windowSize platforms n points) ∧
    (loopCount addf duration dt fuel 0 = none →
      simulateTrajectoryWithCollisions addf fuel ball gravity duration dt platforms
        windowSize = none) ∧
    (0 < dt → ⌈duration / dt⌉₊ ≤ fuel →
      (∀ k : ℕ, k < ⌈duration / dt⌉₊ → addf ((k : K) * dt) dt = ((k : K) + 1) * dt) →
      ∃ points : List (Vector2f K),
        simulateTrajectoryWithCollisions addf fuel ball gravity duration dt platforms
          windowSize = some points ∧
        LiveStepPositions sqrtf draggingIndex ball gravity dt windowSize platforms
          ⌈duration / dt⌉₊ points) := by
  refine ⟨fun n h => ?_, fun h => ?_, fun hdt hfuel hadd => ?_⟩
  · exact simulateTrajectory_of_loopCount addf sqrtf draggingIndex ball gravity duration dt
      platforms windowSize fuel n h
  · unfold simulateTrajectoryWithCollisions
    rw [simulateLoop_eq_map, h]
    rfl
  · exact simulateTrajectory_of_loopCount addf sqrtf draggingIndex ball gravity duration dt
      platforms windowSize fuel _ (loopCount_of_exact addf duration dt hdt hadd fuel hfuel)

theorem loopCount_main : loopCount addF32 5 substep016 313 0 = some 313 := by
  decide!

theorem loopCount_six : loopCount addF32 6 substep016 376 0 = some 376 := by
  decide!

theorem loopCount_three : loopCount addF32 3 substep01 31 0 = some 31 := by
  decide!

theorem addF32_exact_sixtyFourth :
    ∀ k : ℕ, k < 320 → addF32 ((k : ℚ) * (1 / 64)) (1 / 64) = ((k : ℚ) + 1) * (1 / 64) := by
  decide!

theorem ceil_five_sixtyFourth : ⌈(5 : ℚ) / (1 / 64)⌉₊ = 320 :=
  (Nat.ceil_eq_iff (by norm_num)).mpr (by norm_num)

/-- C8 with the binary32 counter, the platform of `main` and a 1000 by 700
window.  With the arguments `main` passes (horizon `5.f`, substep `0.016f`)
the loop returns after 313 runs, which is `⌈5 / 0.016f⌉`, with the 313
positions of the live steps.  With substep `1 / 64`, whose multiples up to 5
binary32 adds without rounding, it returns the `⌈5 / (1 / 64)⌉` positions of
the live steps. -/
theorem simulateTrajectory_refines_step_witness :
    (∃ points : List (Vector2f ℚ),
      simulateTrajectoryWithCollisions addF32 313 (mkBall 20 ⟨500, 100⟩ ⟨0, 0⟩) ⟨0, 980⟩ 5
        substep016 [mainPlatform] ⟨1000, 700⟩ = some points ∧
      LiveStepPositions sqrtExact (-1) (mkBall 20 ⟨500, 100⟩ ⟨0, 0⟩) ⟨0, 980⟩ substep016
        ⟨1000, 700⟩ [mainPlatform] 313 points) ∧
    ⌈(5 : ℚ) / substep016⌉₊ = 313 ∧
    (∃ points : List (Vector2f ℚ),
      simulateTrajectoryWithCollisions addF32 320 (mkBall 20 ⟨500, 100⟩ ⟨0, 0⟩) ⟨0, 980⟩ 5
        (1 / 64) [mainPlatform] ⟨1000, 700⟩ = some points ∧
      LiveStepPositions sqrtExact (-1) (mkBall 20 ⟨500, 100⟩ ⟨0, 0⟩) ⟨0, 980⟩ (1 / 64)
        ⟨1000, 700⟩ [mainPlatform] ⌈(5 : ℚ) / (1 / 64)⌉₊ points) :=
  ⟨(simulateTrajectory_refines_step addF32 sqrtExact (-1) (mkBall 20 ⟨500, 100⟩ ⟨0, 0⟩)
      ⟨0, 980⟩ 5 substep016 [mainPlatform] ⟨1000, 700⟩ 313).1 313 loopCount_main,
    (Nat.ceil_eq_iff (by norm_num)).mpr (by norm_num [substep016]),
    (simulateTrajectory_refines_step addF32 sqrtExact (-1) (mkBall 20 ⟨500, 100⟩ ⟨0, 0⟩)
      ⟨0, 980⟩ 5 (1 / 64) [mainPlatform] ⟨1000, 700⟩ 320).2.2 (by norm_num)
      (le_of_eq ceil_five_sixtyFourth)
      (fun k hk => addF32_exact_sixtyFourth k (by rwa [ceil_five_sixtyFourth] at hk))⟩

/-- C8 as stated fails on the number of points.  With the binary32 counter,
horizon `3.f` and substep `0.1f` give 31 points where `⌈3 / 0.1f⌉ = 30`, and
horizon `6.f` and substep `0.016f` give 376 points where
`⌈6 / 0.016f⌉ = 375`. -/
theorem simulateTrajectory_count_counterexample :
    ((simulateTrajectoryWithCollisions addF32 31 (mkBall 20 ⟨500, 100⟩ ⟨0, 0⟩) ⟨0, 980⟩ 3
        substep01 [mainPlatform] ⟨1000, 700⟩).map List.length = some 31 ∧
      ⌈(3 : ℚ) / substep01⌉₊ = 30) ∧
    ((simulateTrajectoryWithCollisions addF32 376 (mkBall 20 ⟨500, 100⟩ ⟨0, 0⟩) ⟨0, 980⟩ 6
        substep016 [mainPlatform] ⟨1000, 700⟩).map List.length = some 376 ∧
      ⌈(6 : ℚ) / substep016⌉₊ = 375) := by
  refine ⟨⟨?_, ?_⟩, ⟨?_, ?_⟩⟩
  · obtain ⟨points, hsim, hlen, -⟩ := simulateTrajectory_of_loopCount addF32 sqrtExact (-1)
      (mkBall 20 ⟨500, 100⟩ ⟨0, 0⟩) ⟨0, 980⟩ 3 substep01 [mainPlatform] ⟨1000, 700⟩ 31 31
      loopCount_three
    rw [hsim, Option.map_some', hlen]
  · exact (Nat.ceil_eq_iff (by norm_num)).mpr (by norm_num [substep01])
  · obtain ⟨points, hsim, hlen, -⟩ := simulateTrajectory_of_loopCount addF32 sqrtExact (-1)
      (mkBall 20 ⟨500, 100⟩ ⟨0, 0⟩) ⟨0, 980⟩ 6 substep016 [mainPlatform] ⟨1000, 700⟩ 376 376
      loopCount_six
    rw [hsim, Option.map_some', hlen]
  · exact (Nat.ceil_eq_iff (by norm_num)).mpr (by norm_num [substep016])

/-! ## Trail and platforms -/

/-- C9 evaluated on a ball that lands on the platform of `main` during the
step: radius 20, at rest at (400, 579.9), gravity (0, 980), `dt = 1/50`.
After the step the ball is at (400, 580), snapped onto the platform, while the
last point of its trajectory history is (400, 580.292), the position before
the platform was handled. -/
theorem simulationStep_trail_before_platform :
    ((simulationStep sqrtExact false (-1) ⟨0, 980⟩ (1 / 50) ⟨1000, 700⟩ [mainPlatform]
        [mkBall 20 ⟨400, 5799 / 10⟩ ⟨0, 0⟩])[0]?).map Ball.position = some ⟨400, 580⟩ ∧
    ((simulationStep sqrtExact false (-1) ⟨0, 980⟩ (1 / 50) ⟨1000, 700⟩ [mainPlatform]
        [mkBall 20 ⟨400, 5799 / 10⟩ ⟨0, 0⟩])[0]?).map
      (fun b => b.trajectoryPoints.getLast?) = some (some ⟨400, 145073 / 250⟩) := by
  rw [simulationStep_singleton]
  have hphys :
      ((mkBall 20 ⟨400, 5799 / 10⟩ ⟨0, 0⟩ : Ball ℚ).updateForces ⟨0, 980⟩).updatePhysics
        (1 / 50) ⟨1000, 700⟩ =
      { (mkBall 20 ⟨400, 5799 / 10⟩ ⟨0, 0⟩ : Ball ℚ) with
        position := ⟨400, 145073 / 250⟩, velocity := ⟨0, 98 / 5⟩,
        acceleration := ⟨0, 980⟩, gravityForce := ⟨0, 980⟩, dragForce := ⟨0, 0⟩,
        totalForce := ⟨0, 980⟩, trajectoryPoints := [⟨400, 145073 / 250⟩] } := by
    norm_num [Ball.updatePhysics, Ball.recordTrajectory, Ball.bounceOnWindow, Ball.integrate,
      Ball.updateForces, mkBall, Vector2f.ext_iff']
  simp only [moveBall, hphys, List.foldl_cons, List.foldl_nil, List.getElem?_cons_zero,
    Option.map_some']
  norm_num [handlePlatformCollision, topCond, mainPlatform, mkBall]

end PhysicsSandbox
